import Mathlib

/-!
# Drone dispatch platform: verification of the coordination layer

A shallow embedding, in Lean 4, of the parts of the drone-delivery control
plane that the specification's claims speak about:

* the KV backend's compare-and-swap (`src/kvstore/app.py`, `db_cas`);
* the replication coordinator's LWW read with read-repair and its
  primary-anchored CAS (`src/kvfront/app.py`, `get_key` and `cas`);
* the dispatcher's drone selection, assignment re-check, autoscaling
  retirement and their KV effects (`src/dispatcher/app.py`);
* the drone simulator's CAS merge-write (`src/drone_sim/app.py`, `run_one`).

Python dictionaries carrying JSON documents are modelled by the inductive
type `Val`; machine floats are modelled by `ℚ` (every constant involved is a
short decimal, and no claim depends on rounding of transcendental
functions); the Haversine metric is abstracted as a distance-function
parameter, since no claim depends on the metric itself, only on how its
results are compared.  Effectful code is modelled by explicit state passing
and by returning the list of KV effects an operation performs.
-/

/-- A JSON value, as stored in the KV and carried in HTTP bodies.
`null` doubles as Python `None`, which serializes to JSON `null`. -/
inductive Val where
  | null : Val
  | bool (b : Bool) : Val
  | num (q : ℚ) : Val
  | str (s : String) : Val
  | arr (xs : List Val) : Val
  | obj (fs : List (String × Val)) : Val

mutual

/-- Structural (Python `==`) equality on JSON values, decidably. -/
def Val.decEq : (a b : Val) → Decidable (a = b)
  | .null, .null => isTrue rfl
  | .bool a, .bool b =>
      if h : a = b then isTrue (by rw [h]) else isFalse (by simp [h])
  | .num a, .num b =>
      if h : a = b then isTrue (by rw [h]) else isFalse (by simp [h])
  | .str a, .str b =>
      if h : a = b then isTrue (by rw [h]) else isFalse (by simp [h])
  | .arr xs, .arr ys =>
      match Val.decEqList xs ys with
      | isTrue h => isTrue (by rw [h])
      | isFalse h => isFalse (by intro he; cases he; exact h rfl)
  | .obj fs, .obj gs =>
      match Val.decEqFields fs gs with
      | isTrue h => isTrue (by rw [h])
      | isFalse h => isFalse (by intro he; cases he; exact h rfl)
  | .null, .bool _ => isFalse nofun
  | .null, .num _ => isFalse nofun
  | .null, .str _ => isFalse nofun
  | .null, .arr _ => isFalse nofun
  | .null, .obj _ => isFalse nofun
  | .bool _, .null => isFalse nofun
  | .bool _, .num _ => isFalse nofun
  | .bool _, .str _ => isFalse nofun
  | .bool _, .arr _ => isFalse nofun
  | .bool _, .obj _ => isFalse nofun
  | .num _, .null => isFalse nofun
  | .num _, .bool _ => isFalse nofun
  | .num _, .str _ => isFalse nofun
  | .num _, .arr _ => isFalse nofun
  | .num _, .obj _ => isFalse nofun
  | .str _, .null => isFalse nofun
  | .str _, .bool _ => isFalse nofun
  | .str _, .num _ => isFalse nofun
  | .str _, .arr _ => isFalse nofun
  | .str _, .obj _ => isFalse nofun
  | .arr _, .null => isFalse nofun
  | .arr _, .bool _ => isFalse nofun
  | .arr _, .num _ => isFalse nofun
  | .arr _, .str _ => isFalse nofun
  | .arr _, .obj _ => isFalse nofun
  | .obj _, .null => isFalse nofun
  | .obj _, .bool _ => isFalse nofun
  | .obj _, .num _ => isFalse nofun
  | .obj _, .str _ => isFalse nofun
  | .obj _, .arr _ => isFalse nofun

def Val.decEqList : (xs ys : List Val) → Decidable (xs = ys)
  | [], [] => isTrue rfl
  | [], _ :: _ => isFalse nofun
  | _ :: _, [] => isFalse nofun
  | x :: xs, y :: ys =>
      match Val.decEq x y, Val.decEqList xs ys with
      | isTrue h1, isTrue h2 => isTrue (by rw [h1, h2])
      | isFalse h1, _ => isFalse (by intro he; injection he with e1 e2; exact h1 e1)
      | _, isFalse h2 => isFalse (by intro he; injection he with e1 e2; exact h2 e2)

def Val.decEqFields : (fs gs : List (String × Val)) → Decidable (fs = gs)
  | [], [] => isTrue rfl
  | [], _ :: _ => isFalse nofun
  | _ :: _, [] => isFalse nofun
  | (k, v) :: fs, (l, w) :: gs =>
      match String.decEq k l, Val.decEq v w, Val.decEqFields fs gs with
      | isTrue h0, isTrue h1, isTrue h2 => isTrue (by rw [h0, h1, h2])
      | isFalse h0, _, _ => isFalse (by
          intro he
          injection he with e1 e2
          exact h0 (congrArg Prod.fst e1))
      | _, isFalse h1, _ => isFalse (by
          intro he
          injection he with e1 e2
          exact h1 (congrArg Prod.snd e1))
      | _, _, isFalse h2 => isFalse (by intro he; injection he with e1 e2; exact h2 e2)

end

instance : DecidableEq Val := Val.decEq

namespace KVStore

/-- The backend's durable table `kv_store`, key to stored (JSON-decoded)
value.  A missing key is `none` (no row). -/
def Store := List (String × Val)

/-- `SELECT value FROM kv_store WHERE key = ?` followed by `json.loads`. -/
def Store.get (st : Store) (key : String) : Option Val :=
  (st.find? (fun kv => kv.1 = key)).map Prod.snd

/-- Write `value` under `key` (INSERT or UPDATE), as `db_put`/the CAS
write branch do. -/
def Store.set (st : Store) (key : String) (v : Val) : Store :=
  match st with
  | [] => [(key, v)]
  | kv :: rest =>
      if kv.1 = key then (key, v) :: rest else kv :: Store.set rest key v

/-- `db_cas(key, old, new)` from `src/kvstore/app.py`: inside one
transaction, read the current row; if the key is absent, insert `new` and
succeed only when `old` is `None`; if the key is present, fail when `old`
is `None`, else update to `new` exactly when the decoded current value
equals `old`.  Returns (ok, resulting store). -/
def dbCas (st : Store) (key : String) (old new : Val) : Bool × Store :=
  match st.get key with
  | none =>
      if old = Val.null then (true, st.set key new) else (false, st)
  | some current =>
      if old = Val.null then (false, st)
      else if current = old then (true, st.set key new) else (false, st)

/-- The HTTP CAS endpoint of the backend: perform `db_cas`; on failure
report the now-current value (`db_get`). -/
def casEndpoint (st : Store) (key : String) (old new : Val) :
    (Bool × Option Val) × Store :=
  let r := dbCas st key old new
  if r.1 then ((true, none), r.2)
  else ((false, (r.2).get key), r.2)

end KVStore

namespace KVFront

/-- The coordinator's `READ_REPAIR` flag (env default "1" = on). -/
def READ_REPAIR : Bool := true

/-- Python `float(x)` on the `_ts` field of a wrapped value.  In the source
the field is always produced by `wrap` as `time.time()` (a nonnegative
number); on a non-numeric field the original raises, so the claims are
settled under the hypothesis that every stored `_ts` is numeric and
nonnegative. -/
def pyFloat (v : Val) : ℚ :=
  match v with
  | .num q => q
  | .bool b => if b then 1 else 0
  | _ => 0

/-- Field lookup in a JSON object (Python `stored["k"]` with `"k" in stored`). -/
def getField (fs : List (String × Val)) (k : String) : Option Val :=
  (fs.find? (fun kv => kv.1 = k)).map Prod.snd

/-- `unwrap(stored)` from `src/kvfront/app.py`: a dict carrying both `_ts`
and `data` yields `(float(_ts), data)`; anything else yields `(0.0, stored)`
so that it loses every LWW comparison. -/
def unwrap (stored : Val) : ℚ × Val :=
  match stored with
  | .obj fs =>
      match getField fs "_ts", getField fs "data" with
      | some ts, some d => (pyFloat ts, d)
      | _, _ => (0, stored)
  | _ => (0, stored)

/-- `wrap(value)`: the LWW envelope `obj [_ts, data]` with the coordinator's
wall-clock timestamp. -/
def wrap (ts : ℚ) (v : Val) : Val :=
  Val.obj [("_ts", Val.num ts), ("data", v)]

/-- The best-candidate loop of `get_key`: running over the replica
responses with accumulator `(best_ts, best_val, best_idx)` initialized to
`(-1.0, None, -1)`, replace the accumulator whenever a responding replica
has `ts > best_ts`.  `Val.null` plays Python `None` for the initial
`best_val`. -/
def selectBestAux (i : ℕ) (bts : ℚ) (bv : Val) (bidx : ℤ) :
    List (Option Val) → ℚ × Val × ℤ
  | [] => (bts, bv, bidx)
  | none :: rest => selectBestAux (i + 1) bts bv bidx rest
  | some v :: rest =>
      if bts < (unwrap v).1 then
        selectBestAux (i + 1) (unwrap v).1 (unwrap v).2 (i : ℤ) rest
      else
        selectBestAux (i + 1) bts bv bidx rest

def selectBest (vals : List (Option Val)) : ℚ × Val × ℤ :=
  selectBestAux 0 (-1) Val.null (-1) vals

/-- The `to_fix` loop of `get_key`: indices of replicas that responded
(`ts ≥ 0`; a missing response counts as `ts = -1`) with a timestamp
strictly older than the winner. -/
def toFixAux (bts : ℚ) (i : ℕ) : List (Option Val) → List ℕ
  | [] => []
  | none :: rest => toFixAux bts (i + 1) rest
  | some v :: rest =>
      if 0 ≤ (unwrap v).1 ∧ (unwrap v).1 < bts then i :: toFixAux bts (i + 1) rest
      else toFixAux bts (i + 1) rest

def toFix (vals : List (Option Val)) (bts : ℚ) : List ℕ :=
  toFixAux bts 0 vals

/-- What a coordinator GET produces: the HTTP result (`none` = 404) and the
read-repair PUTs issued, as pairs (replica index, wrapped body). -/
structure GetOutcome where
  result : Option Val
  repairs : List (ℕ × Val)

/-- `get_key` from `src/kvfront/app.py`, as a function of the replica
responses `vals` (one entry per replica of the replica set, `none` = the
replica returned missing or was unreachable): pick the LWW winner, 404 when
no replica responded, and issue best-effort read-repair PUTs of the wrapped
winner to every stale responding replica. -/
def getKey (vals : List (Option Val)) : GetOutcome :=
  let b := selectBest vals
  if b.2.2 < 0 then ⟨none, []⟩
  else
    let wrapped := Val.obj [("_ts", Val.num b.1), ("data", b.2.1)]
    let fix := if READ_REPAIR && decide (0 ≤ b.1) then toFix vals b.1 else []
    ⟨some b.2.1, fix.map (fun i => (i, wrapped))⟩

/-- `cur_unwrapped` in `cas`: the primary's current data, `None` (= null)
when the primary has no value. -/
def primaryData (cur_raw : Option Val) : Val :=
  match cur_raw with
  | some c => (unwrap c).2
  | none => Val.null

/-- The environment a single coordinator CAS call runs against: the
primary's current wrapped value as read by `get_one`, the primary's
verdict on the real CAS, the current value the backend reports on
failure, the secondary replicas and which of their PUTs succeed, and the
wall clock used by `wrap`. -/
structure CasCtx where
  primaryCur : Option Val
  backendOk : Bool
  backendCurrent : Option Val
  secondaries : List ℕ
  putOk : ℕ → Bool
  ts : ℚ

/-- What a coordinator CAS produces: the HTTP response (`ok`, `current`,
with `Val.null` for an absent/None current), the real CAS forwarded to the
primary (as the pair old-wrapped-as-read, new-wrapped) when one was issued,
the replication PUTs to secondaries, and the hints appended for failed
secondaries. -/
structure CasOutcome where
  ok : Bool
  current : Val
  primaryCasSent : Option (Val × Val)
  secondaryPuts : List (ℕ × Val)
  hints : List (ℕ × Val)

/-- `cas` from `src/kvfront/app.py`: read the primary, compare its
unwrapped data against the client-supplied `old` on the coordinator side;
on match, forward a real CAS of the wrapped values to the primary; on
primary ok, PUT the new wrapped value to every secondary, hinting each
failed PUT. -/
def frontCas (ctx : CasCtx) (old new : Val) : CasOutcome :=
  let cur_raw := ctx.primaryCur
  let cur_unwrapped := primaryData cur_raw
  if cur_unwrapped ≠ old then
    ⟨false, cur_unwrapped, none, [], []⟩
  else
    let new_wrapped := wrap ctx.ts new
    let old_sent := cur_raw.getD Val.null
    if ctx.backendOk then
      ⟨true, Val.null, some (old_sent, new_wrapped),
        ctx.secondaries.map (fun b => (b, new_wrapped)),
        (ctx.secondaries.filter (fun b => ! ctx.putOk b)).map
          (fun b => (b, new_wrapped))⟩
    else
      ⟨false, primaryData ctx.backendCurrent, some (old_sent, new_wrapped), [], []⟩

end KVFront

namespace Dispatcher

/-! Embedding of `src/dispatcher/app.py`: configuration defaults, geometry
helpers, the drone-selection algorithm `pick_drone`, the post-lock re-check
of `assign_one`, and the retirement arm of `autoscale_by_type`.  Machine
floats become `ℚ`; the Haversine metric `haversine_km` is abstracted as a
distance-function field `Geo.dist`, since every settled claim depends only
on how distances are compared, not on the metric itself. -/

def BATTERY_PER_KM : ℚ := 2
def SAFETY_MARGIN_PCT : ℚ := 5
def NEAR_EPS_KM : ℚ := 1 / 5
def MAX_PICKUP_KM : ℚ := 20
def CRITICAL_BATTERY : ℚ := 30
def EARLY_CHARGE_THRESHOLD : ℤ := 5

structure Pos where
  lat : ℚ
  lon : ℚ
  deriving DecidableEq

structure Zone where
  name : String
  latMin : ℚ
  latMax : ℚ
  lonMin : ℚ
  lonMax : ℚ
  charge : Pos
  neighbors : List String
  deriving DecidableEq

structure Zcfg where
  zones : List Zone

/-- The distance oracle standing for `haversine_km` (great circle,
R = 6371). -/
structure Geo where
  dist : Pos → Pos → ℚ

/-- `point_zone`: the first zone whose bounds contain the point. -/
def pointZone (zcfg : Zcfg) (p : Pos) : Option Zone :=
  zcfg.zones.find? (fun z =>
    decide (z.latMin ≤ p.lat) && decide (p.lat ≤ z.latMax) &&
    decide (z.lonMin ≤ p.lon) && decide (p.lon ≤ z.lonMax))

/-- `nearest_charge_point`: best-so-far scan of all zone charge points,
starting from `(None, 1e18)`. -/
def nearestChargePointAux (geo : Geo) (p : Pos) (best : Option Pos) (bestd : ℚ) :
    List Zone → Option Pos
  | [] => best
  | z :: rest =>
      if geo.dist p z.charge < bestd then
        nearestChargePointAux geo p (some z.charge) (geo.dist p z.charge) rest
      else
        nearestChargePointAux geo p best bestd rest

def nearestChargePoint (geo : Geo) (zcfg : Zcfg) (p : Pos) : Option Pos :=
  nearestChargePointAux geo p none (10 ^ 18) zcfg.zones

/-- `zone_proximity_rank`: 0 same zone, 1 neighbor, 2 otherwise (2 when
either zone is unknown). -/
def zoneProximityRank (zo zd : Option Zone) : ℕ :=
  match zo, zd with
  | none, _ => 2
  | _, none => 2
  | some a, some b =>
      if a.name = b.name then 0
      else if b.name ∈ a.neighbors then 1 else 2

/-- `pkg_class`: light ≤ 3 kg, medium ≤ 7 kg, else heavy. -/
def pkgClass (weight : ℚ) : String :=
  if weight ≤ 3 then "light" else if weight ≤ 7 then "medium" else "heavy"

/-- ASCII lowercasing of one character (`str.lower()` on the alphabet the
system uses: type names and statuses are ASCII). -/
def lowerChar (c : Char) : Char :=
  if 65 ≤ c.toNat ∧ c.toNat ≤ 90 then Char.ofNat (c.toNat + 32) else c

/-- Python `s.lower()`; structurally recursive so that it evaluates on
literals. -/
def pyLower (s : String) : String := ⟨s.data.map lowerChar⟩

/-- The `feas_miss_set` field of a stored drone document.  The dispatcher
writes it sometimes as a JSON list and sometimes as a Python `set` object
(which `json.dumps` cannot serialize); the embedding keeps the distinction. -/
inductive MissVal where
  | lst (ids : List String)
  | pyset (ids : List String)
  deriving DecidableEq

def MissVal.asPyList : MissVal → List String
  | .lst ids => ids
  | .pyset ids => ids

/-- Python `set(xs)`: deduplicate (iteration order fixed as first-occurrence
order; no settled claim depends on set iteration order). -/
def pySetOf (xs : List String) : List String := xs.dedup

/-- A drone document as the dispatcher reads and writes it.  Fields the
source accesses with `d.get(k, default)` are total here; a drone document
registered by the simulator carries all of them (`feas_miss_set` defaults
to the empty list). -/
structure DroneDoc where
  id : String
  type : String
  status : String
  speed : ℚ
  battery : ℚ
  pos : Option Pos
  at_charge : Bool
  current_delivery : Option String
  feas_miss : ℤ
  feas_miss_set : MissVal
  deriving DecidableEq

/-- `json.dumps` succeeds on a drone document exactly when no field holds a
Python `set`; the only such field the dispatcher ever writes is
`feas_miss_set`. -/
def DroneDoc.jsonSerializable (d : DroneDoc) : Bool :=
  match d.feas_miss_set with
  | .lst _ => true
  | .pyset _ => false

/-- `can_complete_mission(drone, origin, destination, zcfg)`: battery must
cover pos→origin→destination→nearest-charge at `BATTERY_PER_KM` plus the
additive safety margin.  Result is (ok, total_km, required_pct).  With an
empty zone list the source raises on the missing charge point; the
embedding is only evaluated on configurations with at least one zone. -/
def canCompleteMission (geo : Geo) (d : DroneDoc) (origin destination : Pos)
    (zcfg : Zcfg) : Bool × ℚ × ℚ :=
  match d.pos with
  | none => (false, 0, 0)
  | some pos =>
      let d1 := geo.dist pos origin
      let d2 := geo.dist origin destination
      let d3 := match nearestChargePoint geo zcfg destination with
        | some cp => geo.dist destination cp
        | none => 0
      let total := d1 + d2 + d3
      let required := total * BATTERY_PER_KM + SAFETY_MARGIN_PCT
      (decide (required ≤ d.battery), total, required)

/-- A KV side effect the dispatcher performs on a drone document: a plain
unconditional `kv_put`, or a conditional `kv_cas`. -/
inductive KVEff where
  | put (key : String) (doc : DroneDoc)
  | cas (key : String) (old new : DroneDoc)
  deriving DecidableEq

/-- One entry of `pick_drone`'s candidate list. -/
structure Candidate where
  id : String
  dist_bucket : ℤ
  prox_rank : ℕ
  battery : ℚ
  speed : ℚ
  dist_km : ℚ
  deriving DecidableEq

/-- Python `int(q)`: truncation toward zero. -/
def pyInt (q : ℚ) : ℤ := if q < 0 then ⌈q⌉ else ⌊q⌋

/-- The comparison behind `candidates.sort(key=...)`: lexicographic on
`(dist_bucket, prox_rank, battery, -speed)`. -/
def candLE (a b : Candidate) : Bool :=
  if a.dist_bucket ≠ b.dist_bucket then decide (a.dist_bucket < b.dist_bucket)
  else if a.prox_rank ≠ b.prox_rank then decide (a.prox_rank < b.prox_rank)
  else if a.battery ≠ b.battery then decide (a.battery < b.battery)
  else decide (-a.speed ≤ -b.speed)

/-- The fixed inputs of one `pick_drone` call. -/
structure PickCtx where
  geo : Geo
  zcfg : Zcfg
  origin : Pos
  destination : Pos
  weight : ℚ
  delivery_id : String

/-- The body of `pick_drone`'s per-drone loop: given a drones_index entry
and the document read for it, produce the candidate it contributes (if any)
and the plain PUTs it performs (charging push, feas-miss update, feas-miss
reset).  An absent document (`kv_get` returned None) is skipped. -/
def pickStep (ctx : PickCtx) (did : String) (dopt : Option DroneDoc) :
    Option Candidate × List KVEff :=
  match dopt with
  | none => (none, [])
  | some d =>
      if d.status ≠ "idle" then (none, [])
      else if d.current_delivery.isSome then (none, [])
      else if pyLower d.type ≠ pkgClass ctx.weight then (none, [])
      else if d.battery ≤ CRITICAL_BATTERY then
        (none, [.put ("drone:" ++ did) { d with status := "charging" }])
      else if ¬ (canCompleteMission ctx.geo d ctx.origin ctx.destination ctx.zcfg).1 then
        let miss_set := pySetOf d.feas_miss_set.asPyList
        if ctx.delivery_id ∈ miss_set then (none, [])
        else
          let miss := d.feas_miss + 1
          let d_upd :=
            if miss ≥ EARLY_CHARGE_THRESHOLD then
              { d with status := "charging", feas_miss := 0,
                       feas_miss_set := .lst [] }
            else
              { d with feas_miss := miss,
                       feas_miss_set := .lst (miss_set ++ [ctx.delivery_id]) }
          (none, [.put ("drone:" ++ did) d_upd])
      else
        let resetEffs :=
          if d.feas_miss ≠ 0 ∨ d.feas_miss_set.asPyList ≠ [] then
            [KVEff.put ("drone:" ++ did)
              { d with feas_miss := 0, feas_miss_set := .lst [] }]
          else []
        let pos := d.pos.getD ⟨0, 0⟩
        let dist_km := ctx.geo.dist pos ctx.origin
        let c : Candidate :=
          { id := did
            dist_bucket := if 0 < NEAR_EPS_KM then pyInt (dist_km / NEAR_EPS_KM) else 0
            prox_rank := zoneProximityRank (pointZone ctx.zcfg ctx.origin)
              (pointZone ctx.zcfg pos)
            battery := d.battery
            speed := d.speed
            dist_km := dist_km }
        (some c, resetEffs)

/-- `pick_drone`'s loop over the drones index, threading candidates and
KV effects in order. -/
def pickLoop (ctx : PickCtx) : List (String × Option DroneDoc) →
    List Candidate × List KVEff
  | [] => ([], [])
  | (did, dopt) :: rest =>
      let s := pickStep ctx did dopt
      let r := pickLoop ctx rest
      (match s.1 with
       | some c => c :: r.1
       | none => r.1,
       s.2 ++ r.2)

structure PickOutcome where
  choice : Option String
  effects : List KVEff

/-- `pick_drone` from `src/dispatcher/app.py`: filter and rank the known
drones, then reject the winner when its actual distance to the origin is
strictly above `MAX_PICKUP_KM`. -/
def pickDrone (ctx : PickCtx) (drones : List (String × Option DroneDoc)) :
    PickOutcome :=
  let r := pickLoop ctx drones
  match r.1.mergeSort candLE with
  | [] => ⟨none, r.2⟩
  | best :: _ =>
      if MAX_PICKUP_KM < best.dist_km then ⟨none, r.2⟩
      else ⟨some best.id, r.2⟩

end Dispatcher

namespace Dispatcher

/-- The result of `assign_one`'s post-lock re-check: whether the function
falls through to the idle→busy claim, and the drone document written by a
plain `kv_put` on the failure path. -/
structure RecheckOutcome where
  proceed : Bool
  write : Option DroneDoc
  deriving DecidableEq

/-- The post-lock re-check of `assign_one` (`src/dispatcher/app.py`,
the block guarded by `(not feas_ok) or battery <= CRITICAL_BATTERY`): on
failure, increment `feas_miss`, add `delivery_id` to the `feas_miss_set`
set if absent, possibly flip to charging (resetting counter and set only
at the threshold), write the update with a plain PUT, and abandon.  On
success, proceed with no write. -/
def assignOneRecheck (geo : Geo) (zcfg : Zcfg) (sdoc : DroneDoc)
    (origin destination : Pos) (delivery_id : String) : RecheckOutcome :=
  let feas_ok := (canCompleteMission geo sdoc origin destination zcfg).1
  if ¬ feas_ok ∨ sdoc.battery ≤ CRITICAL_BATTERY then
    let batt_now := sdoc.battery
    let miss := sdoc.feas_miss + 1
    let miss_set := pySetOf sdoc.feas_miss_set.asPyList
    let miss_set2 :=
      if delivery_id ∈ miss_set then miss_set else miss_set ++ [delivery_id]
    let s_upd0 := { sdoc with feas_miss := miss, feas_miss_set := .pyset miss_set2 }
    let s_upd :=
      if batt_now ≤ CRITICAL_BATTERY ∨ miss ≥ EARLY_CHARGE_THRESHOLD then
        if miss ≥ EARLY_CHARGE_THRESHOLD then
          { s_upd0 with status := "charging", feas_miss := 0,
                        feas_miss_set := .lst [] }
        else { s_upd0 with status := "charging" }
      else s_upd0
    ⟨false, some s_upd⟩
  else ⟨true, none⟩

/-- `(d.get("type") or "light").lower()` then bucket-key normalization to
one of light, medium, heavy. -/
def normType (t : String) : String :=
  let s := pyLower t
  if s = "light" ∨ s = "medium" ∨ s = "heavy" then s else "light"

/-- `d.get("status", "inactive")` then bucket-key normalization. -/
def normStatus (s : String) : String :=
  if s = "idle" ∨ s = "busy" ∨ s = "charging" ∨ s = "retiring" ∨ s = "inactive"
  then s else "inactive"

/-- One status bucket of `autoscale_by_type` for weight class `t`: the
drones of the index whose document (first read) normalizes to that class
and status, in index order. -/
def bucketOf (didx : List String) (read1 : String → Option DroneDoc)
    (t s : String) : List String :=
  didx.filter (fun did =>
    match read1 did with
    | none => false
    | some d => normType d.type = t && normStatus d.status = s)

/-- A CAS the autoscaler issues on `drone:{id}`: expected (re-read) old
document and the new document written on success. -/
structure CasAttempt where
  id : String
  old : DroneDoc
  new : DroneDoc
  deriving DecidableEq

/-- The `active_now > target` arm of `autoscale_by_type` for one weight
class `t` (`src/dispatcher/app.py`): pool = charging ∪ idle from the first
read; under the scheduler mutex, re-read each pooled drone (`read2`), skip
any with a `current_delivery` and any busy; CAS the first
`min(max(noneed, 0), len(safe_pool))` of the remaining to retiring. -/
def retireAttempts (didx : List String) (read1 read2 : String → Option DroneDoc)
    (t : String) (target : ℕ) : List CasAttempt :=
  let idleB := bucketOf didx read1 t "idle"
  let busyB := bucketOf didx read1 t "busy"
  let chargingB := bucketOf didx read1 t "charging"
  let active_now := idleB.length + busyB.length + chargingB.length
  if target < active_now then
    let noneed := active_now - target
    let pool := chargingB ++ idleB
    let safe_pool := pool.filterMap (fun did =>
      match read2 did with
      | none => none
      | some d =>
          if d.current_delivery.isSome then none
          else if d.status = "busy" then none
          else some (did, d))
    let take := min (max noneed 0) safe_pool.length
    (safe_pool.take take).map (fun p =>
      ⟨p.1, p.2, { p.2 with status := "retiring" }⟩)
  else []

/-- Success of a KV CAS against the store contents at CAS time: the stored
document must equal the expected old value (the backend compares decoded
values for equality). -/
def kvCasOk (store : String → Option DroneDoc) (id : String)
    (old : DroneDoc) : Bool :=
  decide (store id = some old)

end Dispatcher

namespace Sim

/-- A raw drone document as the simulator handles it: a Python/JSON dict. -/
def Doc := List (String × Val)

/-- `dict.update` with a single key: replace in place, or append a new key
at the end (Python dicts preserve insertion order). -/
def Doc.set (d : Doc) (k : String) (v : Val) : Doc := KVStore.Store.set d k v

def Doc.get (d : Doc) (k : String) : Option Val := KVStore.Store.get d k

/-- `new = dict(old); new.update({"pos": …, "battery": …, "at_charge": …})`
from `run_one` in `src/drone_sim/app.py`. -/
def mergeDoc (old : Doc) (new_pos new_battery new_at_charge : Val) : Doc :=
  ((old.set "pos" new_pos).set "battery" new_battery).set "at_charge" new_at_charge

/-- The CAS merge-write retry loop of `run_one` (≤ 10 attempts): at each
attempt re-read the latest full document (`reads n` is what `kv_get`, with
the empty dict as fallback, returns at attempt `n`, reflecting concurrent
writers), overwrite
only the three telemetry fields, and CAS; `casOk n` tells whether attempt
`n`'s CAS succeeded.  Returns the attempt index and the document written,
or `none` when all ten attempts failed (the source then only re-reads for
publication and writes nothing). -/
def casMergeAux (reads : ℕ → Doc) (casOk : ℕ → Bool)
    (new_pos new_battery new_at_charge : Val) :
    ℕ → ℕ → Option (ℕ × Doc)
  | _, 0 => none
  | attempt, fuel + 1 =>
      let old := reads attempt
      let new := mergeDoc old new_pos new_battery new_at_charge
      if casOk attempt then some (attempt, new)
      else casMergeAux reads casOk new_pos new_battery new_at_charge (attempt + 1) fuel

def casMergeWrite (reads : ℕ → Doc) (casOk : ℕ → Bool)
    (new_pos new_battery new_at_charge : Val) : Option (ℕ × Doc) :=
  casMergeAux reads casOk new_pos new_battery new_at_charge 0 10

end Sim

namespace Dispatcher

/-! Concrete fixtures used to evaluate the dispatcher functions at specific
inputs: a computable stand-in metric (scaled L1 distance on coordinates —
the settled claims depend only on comparisons of distances, never on the
metric being Haversine), a single world-covering zone whose charge point is
the origin of coordinates, and a handful of drone documents. -/

def geoL1 : Geo := ⟨fun p q => |p.lat - q.lat| + |p.lon - q.lon|⟩

def p00 : Pos := ⟨0, 0⟩

def zcfg1 : Zcfg := ⟨[⟨"zone 0", -90, 90, -180, 180, p00, []⟩]⟩

/-- A delivery with origin = destination = the charge point, weight 1 kg. -/
def ctx1 : PickCtx := ⟨geoL1, zcfg1, p00, p00, 1, "D1"⟩

/-- Idle light drone with battery exactly `CRITICAL_BATTERY`. -/
def droneCrit : DroneDoc :=
  ⟨"d1", "light", "idle", 1 / 4, 30, some p00, false, none, 0, .lst []⟩

/-- Idle light drone at distance exactly `MAX_PICKUP_KM` from the origin,
feasible for the `ctx1` mission (required 45 % ≤ battery 50 %). -/
def droneFar : DroneDoc :=
  ⟨"d1", "light", "idle", 1 / 4, 50, some ⟨20, 0⟩, false, none, 0, .lst []⟩

/-- Idle light drone too far for any feasible mission (required 405 % at
200 km), battery above critical, no feasibility misses recorded yet. -/
def sdocFresh : DroneDoc :=
  ⟨"d1", "light", "idle", 1 / 4, 50, some ⟨200, 0⟩, false, none, 0, .lst []⟩

/-- Like `sdocFresh` but delivery D1 has already been counted: it sits in
`feas_miss_set` and `feas_miss` is 1. -/
def sdocSeen : DroneDoc :=
  ⟨"d1", "light", "idle", 1 / 4, 50, some ⟨200, 0⟩, false, none, 1, .lst ["D1"]⟩

/-- A charging light drone with no current delivery. -/
def droneCharging1 : DroneDoc :=
  ⟨"d1", "light", "charging", 1 / 4, 80, some p00, false, none, 0, .lst []⟩

/-- A one-drone world: reads resolve d1 to the given document. -/
def readOne (d : DroneDoc) : String → Option DroneDoc :=
  fun did => if did = "d1" then some d else none

end Dispatcher

/-! ## Theorems -/

namespace KVStore

theorem Store.get_set_self (st : Store) (key : String) (v : Val) :
    (st.set key v).get key = some v := by
  induction st with
  | nil => simp [Store.set, Store.get, List.find?]
  | cons kv rest ih =>
      by_cases h : kv.1 = key
      · simp [Store.set, h, Store.get, List.find?]
      · simpa [Store.set, h, Store.get, List.find?] using ih

theorem Store.get_set_ne (st : Store) (key k : String) (v : Val)
    (hne : k ≠ key) : (st.set key v).get k = st.get k := by
  induction st with
  | nil => simp [Store.set, Store.get, List.find?, hne, Ne.symm hne]
  | cons kv rest ih =>
      by_cases h : kv.1 = key
      · simp [Store.set, h, Store.get, List.find?, hne, Ne.symm hne]
      · simp only [Store.set, h, if_false, Store.get, List.find?]
        by_cases h2 : kv.1 = k
        · simp [h2]
        · simpa [h2, Store.get, List.find?] using ih

/-- C10: backend CAS with `old = None` succeeds and creates the key exactly
when the key is absent; if the key exists, or `old ≠ None` while the key is
absent, it returns false and leaves the store unchanged (first-writer-wins
creation). -/
theorem dbCas_none_first_writer_wins (st : Store) (key : String) (v : Val) :
    ((dbCas st key Val.null v).1 = true ↔ st.get key = none)
    ∧ (st.get key = none →
        dbCas st key Val.null v = (true, st.set key v)
        ∧ (st.set key v).get key = some v)
    ∧ (∀ cur : Val, st.get key = some cur →
        dbCas st key Val.null v = (false, st))
    ∧ (∀ old : Val, old ≠ Val.null → st.get key = none →
        dbCas st key old v = (false, st)) := by
  refine ⟨?_, ?_, ?_, ?_⟩
  · cases h : st.get key with
    | none => simp [dbCas, h]
    | some cur => simp [dbCas, h]
  · intro h
    exact ⟨by simp [dbCas, h], Store.get_set_self st key v⟩
  · intro cur h
    simp [dbCas, h]
  · intro old hold h
    simp [dbCas, h, hold]

/-- Witness for C10 at a concrete input: creating `deliveries_index` from
the absent state succeeds, as the gateway's bootstrap CAS relies on. -/
theorem dbCas_none_first_writer_wins_witness :
    (dbCas [] "deliveries_index" Val.null (Val.arr [Val.str "d1"])).1 = true := by
  have h := dbCas_none_first_writer_wins [] "deliveries_index"
    (Val.arr [Val.str "d1"])
  exact h.1.mpr rfl

end KVStore

namespace KVFront

/-- C4: the coordinator CAS is anchored at the primary: a coordinator-side
mismatch between the primary's unwrapped data and the client-supplied `old`
fails with the current value and performs no write at all; on primary ok
the new wrapped value is replicated by PUT to every secondary, with a hint
appended for exactly the secondaries whose PUT failed; on a primary CAS
failure the call reports the backend's current value, unwrapped, with no
secondary writes. -/
theorem front_cas_primary_anchored (ctx : CasCtx) (old new : Val) :
    (primaryData ctx.primaryCur ≠ old →
      frontCas ctx old new =
        ⟨false, primaryData ctx.primaryCur, none, [], []⟩)
    ∧ (primaryData ctx.primaryCur = old → ctx.backendOk = true →
      frontCas ctx old new =
        ⟨true, Val.null, some (ctx.primaryCur.getD Val.null, wrap ctx.ts new),
          ctx.secondaries.map (fun b => (b, wrap ctx.ts new)),
          (ctx.secondaries.filter (fun b => ! ctx.putOk b)).map
            (fun b => (b, wrap ctx.ts new))⟩)
    ∧ (primaryData ctx.primaryCur = old → ctx.backendOk = false →
      frontCas ctx old new =
        ⟨false, primaryData ctx.backendCurrent,
          some (ctx.primaryCur.getD Val.null, wrap ctx.ts new), [], []⟩) := by
  refine ⟨?_, ?_, ?_⟩
  · intro hne
    simp [frontCas, hne]
  · intro heq hok
    simp [frontCas, heq, hok]
  · intro heq hok
    simp [frontCas, heq, hok]

/-- Witness for C4 at a concrete context: a match on the primary with a
succeeding backend CAS replicates to both secondaries and hints the failed
one. -/
theorem front_cas_primary_anchored_witness :
    frontCas
      ⟨some (wrap 3 (Val.str "v0")), true, none, [1, 2],
        fun b => b == 1, 7⟩
      (Val.str "v0") (Val.str "v1") =
      ⟨true, Val.null, some (wrap 3 (Val.str "v0"), wrap 7 (Val.str "v1")),
        [(1, wrap 7 (Val.str "v1")), (2, wrap 7 (Val.str "v1"))],
        [(2, wrap 7 (Val.str "v1"))]⟩ := by
  have h := front_cas_primary_anchored
    ⟨some (wrap 3 (Val.str "v0")), true, none, [1, 2], fun b => b == 1, 7⟩
    (Val.str "v0") (Val.str "v1")
  refine (h.2.1 ?_ rfl).trans ?_
  · rfl
  · rfl

end KVFront

namespace Sim

theorem casMergeAux_spec (reads : ℕ → Doc) (casOk : ℕ → Bool)
    (np nb ac : Val) :
    ∀ fuel attempt i doc,
      casMergeAux reads casOk np nb ac attempt fuel = some (i, doc) →
      attempt ≤ i ∧ i < attempt + fuel ∧ casOk i = true
        ∧ doc = mergeDoc (reads i) np nb ac := by
  intro fuel
  induction fuel with
  | zero => intro attempt i doc h; simp [casMergeAux] at h
  | succ n ih =>
      intro attempt i doc h
      by_cases hc : casOk attempt
      · simp [casMergeAux, hc] at h
        obtain ⟨h1, h2⟩ := h
        subst h1
        exact ⟨le_refl _, by omega, hc, h2.symm⟩
      · simp [casMergeAux, hc] at h
        obtain ⟨h1, h2, h3, h4⟩ := ih (attempt + 1) i doc h
        exact ⟨by omega, by omega, h3, h4⟩

/-- C6: whenever the simulator's merge-write loop succeeds, it does so
within ten CAS attempts, and the document written is the document read
just before that CAS with only `pos`, `battery` and `at_charge`
overwritten: every other key — in particular `status`,
`current_delivery`, `type` and `speed` — is copied through unchanged. -/
theorem sim_merge_write_frame (reads : ℕ → Doc) (casOk : ℕ → Bool)
    (np nb ac : Val) (i : ℕ) (doc : Doc)
    (h : casMergeWrite reads casOk np nb ac = some (i, doc)) :
    i < 10
    ∧ doc = mergeDoc (reads i) np nb ac
    ∧ (∀ k, k ≠ "pos" → k ≠ "battery" → k ≠ "at_charge" →
        doc.get k = (reads i).get k)
    ∧ doc.get "status" = (reads i).get "status"
    ∧ doc.get "current_delivery" = (reads i).get "current_delivery"
    ∧ doc.get "type" = (reads i).get "type"
    ∧ doc.get "speed" = (reads i).get "speed"
    ∧ doc.get "pos" = some np
    ∧ doc.get "battery" = some nb
    ∧ doc.get "at_charge" = some ac := by
  obtain ⟨h1, h2, h3, h4⟩ := casMergeAux_spec reads casOk np nb ac 10 0 i doc h
  have frame : ∀ k, k ≠ "pos" → k ≠ "battery" → k ≠ "at_charge" →
      doc.get k = (reads i).get k := by
    intro k hk1 hk2 hk3
    subst h4
    show KVStore.Store.get _ k = _
    unfold mergeDoc Doc.set
    rw [KVStore.Store.get_set_ne _ _ _ _ hk3, KVStore.Store.get_set_ne _ _ _ _ hk2,
      KVStore.Store.get_set_ne _ _ _ _ hk1]
    rfl
  refine ⟨by omega, h4, frame, frame _ (by decide) (by decide) (by decide),
    frame _ (by decide) (by decide) (by decide),
    frame _ (by decide) (by decide) (by decide),
    frame _ (by decide) (by decide) (by decide), ?_, ?_, ?_⟩
  · subst h4
    show KVStore.Store.get _ "pos" = some np
    unfold mergeDoc Doc.set
    rw [KVStore.Store.get_set_ne _ _ _ _ (by decide),
      KVStore.Store.get_set_ne _ _ _ _ (by decide)]
    exact KVStore.Store.get_set_self _ _ _
  · subst h4
    show KVStore.Store.get _ "battery" = some nb
    unfold mergeDoc Doc.set
    rw [KVStore.Store.get_set_ne _ _ _ _ (by decide)]
    exact KVStore.Store.get_set_self _ _ _
  · subst h4
    show KVStore.Store.get _ "at_charge" = some ac
    unfold mergeDoc Doc.set
    exact KVStore.Store.get_set_self _ _ _

/-- Witness for C6 at a concrete input: the CAS succeeds at the third
attempt; `status` and `current_delivery` of the freshly read document are
carried through unchanged while `pos`, `battery`, `at_charge` are
overwritten. -/
theorem sim_merge_write_frame_witness :
    2 < 10
    ∧ (mergeDoc [("status", Val.str "busy"), ("current_delivery", Val.str "D7")]
        (Val.obj []) (Val.num 50) (Val.bool false)).get "status" =
        Val.str "busy"
    ∧ (mergeDoc [("status", Val.str "busy"), ("current_delivery", Val.str "D7")]
        (Val.obj []) (Val.num 50) (Val.bool false)).get "current_delivery" =
        Val.str "D7" := by
  have h := sim_merge_write_frame
    (fun _ => [("status", Val.str "busy"), ("current_delivery", Val.str "D7")])
    (fun n => n == 2) (Val.obj []) (Val.num 50) (Val.bool false) 2
    (mergeDoc [("status", Val.str "busy"), ("current_delivery", Val.str "D7")]
      (Val.obj []) (Val.num 50) (Val.bool false)) rfl
  exact ⟨h.1, h.2.2.2.1.trans rfl, h.2.2.2.2.1.trans rfl⟩

end Sim

namespace Dispatcher

theorem bucketOf_mem (didx : List String) (read1 : String → Option DroneDoc)
    (t s did : String) (h : did ∈ bucketOf didx read1 t s) :
    did ∈ didx ∧ ∃ d1, read1 did = some d1
      ∧ normType d1.type = t ∧ normStatus d1.status = s := by
  rw [bucketOf, List.mem_filter] at h
  obtain ⟨hmem, hp⟩ := h
  refine ⟨hmem, ?_⟩
  cases hr : read1 did with
  | none => rw [hr] at hp; simp at hp
  | some d1 =>
      rw [hr] at hp
      simp only [Bool.and_eq_true, decide_eq_true_eq] at hp
      exact ⟨d1, rfl, hp.1, hp.2⟩

/-- C5: in the autoscale-down arm, every drone the autoscaler CASes to
retiring comes from the charging ∪ idle pool of the first read, its
freshly re-read document has no `current_delivery` and is not busy, the
CAS expects exactly that re-read document, and hence a successful CAS can
only replace a document that is not busy and carries no delivery. -/
theorem autoscale_retire_safe (didx : List String)
    (read1 read2 : String → Option DroneDoc) (t : String) (target : ℕ)
    (a : CasAttempt) (ha : a ∈ retireAttempts didx read1 read2 t target) :
    a.new = { a.old with status := "retiring" }
    ∧ read2 a.id = some a.old
    ∧ a.old.current_delivery = none
    ∧ a.old.status ≠ "busy"
    ∧ (∃ d1, read1 a.id = some d1
        ∧ (normStatus d1.status = "charging" ∨ normStatus d1.status = "idle"))
    ∧ ∀ store : String → Option DroneDoc,
        kvCasOk store a.id a.old = true → store a.id = some a.old := by
  rw [retireAttempts] at ha
  split at ha
  case isFalse => simp at ha
  case isTrue hlt =>
      simp only [List.mem_map] at ha
      obtain ⟨p, hp, hap⟩ := ha
      have hp2 : p ∈ (bucketOf didx read1 t "charging" ++ bucketOf didx read1 t "idle").filterMap
          (fun did => match read2 did with
            | none => none
            | some d =>
                if d.current_delivery.isSome then none
                else if d.status = "busy" then none
                else some (did, d)) := List.mem_of_mem_take hp
      rw [List.mem_filterMap] at hp2
      obtain ⟨did, hdid, hmatch⟩ := hp2
      cases hr : read2 did with
      | none => rw [hr] at hmatch; simp at hmatch
      | some d =>
          rw [hr] at hmatch
          by_cases hcd : d.current_delivery.isSome
          · simp [hcd] at hmatch
          · by_cases hb : d.status = "busy"
            · simp [hcd, hb] at hmatch
            · simp only [hcd, Bool.false_eq_true, if_false, if_neg hb,
                Option.some.injEq] at hmatch
              subst hmatch
              subst hap
              refine ⟨rfl, hr, ?_, hb, ?_, ?_⟩
              · cases hcdv : d.current_delivery with
                | none => rfl
                | some x => rw [hcdv] at hcd; simp at hcd
              · rw [List.mem_append] at hdid
                cases hdid with
                | inl hch =>
                    obtain ⟨_, d1, h1, _, h3⟩ := bucketOf_mem _ _ _ _ _ hch
                    exact ⟨d1, h1, Or.inl h3⟩
                | inr hid =>
                    obtain ⟨_, d1, h1, _, h3⟩ := bucketOf_mem _ _ _ _ _ hid
                    exact ⟨d1, h1, Or.inr h3⟩
              · intro store hcas
                exact of_decide_eq_true hcas

/-- Witness for C5: with one charging light drone and target 0 the
autoscaler issues exactly one retire CAS, whose expected old document is
not busy and has no current delivery. -/
theorem autoscale_retire_safe_witness :
    (⟨"d1", droneCharging1, { droneCharging1 with status := "retiring" }⟩ :
        CasAttempt).old.current_delivery = none
    ∧ (⟨"d1", droneCharging1, { droneCharging1 with status := "retiring" }⟩ :
        CasAttempt).old.status ≠ "busy" := by
  have hm : (⟨"d1", droneCharging1, { droneCharging1 with status := "retiring" }⟩ :
      CasAttempt) ∈ retireAttempts ["d1"] (readOne droneCharging1)
        (readOne droneCharging1) "light" 0 := by
    rw [show retireAttempts ["d1"] (readOne droneCharging1)
        (readOne droneCharging1) "light" 0 =
        [⟨"d1", droneCharging1, { droneCharging1 with status := "retiring" }⟩]
      from rfl]
    exact List.mem_singleton_self _
  have h := autoscale_retire_safe ["d1"] (readOne droneCharging1)
    (readOne droneCharging1) "light" 0
    ⟨"d1", droneCharging1, { droneCharging1 with status := "retiring" }⟩ hm
  exact ⟨h.2.2.1, h.2.2.2.1⟩

end Dispatcher

namespace KVFront

theorem selectBestAux_idx_nonneg (vs : List (Option Val)) :
    ∀ i bts bv bidx, 0 ≤ bidx →
      0 ≤ (selectBestAux i bts bv bidx vs).2.2 := by
  induction vs with
  | nil => intro i bts bv bidx h; simpa [selectBestAux] using h
  | cons v rest ih =>
      intro i bts bv bidx h
      cases v with
      | none => simpa [selectBestAux] using ih (i + 1) bts bv bidx h
      | some v =>
          by_cases hlt : bts < (unwrap v).1
          · simpa [selectBestAux, hlt] using
              ih (i + 1) (unwrap v).1 (unwrap v).2 (i : ℤ) (by positivity)
          · simpa [selectBestAux, hlt] using ih (i + 1) bts bv bidx h

theorem selectBestAux_ts_mono (vs : List (Option Val)) :
    ∀ i bts bv bidx, bts ≤ (selectBestAux i bts bv bidx vs).1 := by
  induction vs with
  | nil => intro i bts bv bidx; simp [selectBestAux]
  | cons v rest ih =>
      intro i bts bv bidx
      cases v with
      | none => simpa [selectBestAux] using ih (i + 1) bts bv bidx
      | some v =>
          by_cases hlt : bts < (unwrap v).1
          · have := ih (i + 1) (unwrap v).1 (unwrap v).2 (i : ℤ)
            simp only [selectBestAux, hlt, if_true]
            exact le_trans (le_of_lt hlt) this
          · simpa [selectBestAux, hlt] using ih (i + 1) bts bv bidx

theorem selectBestAux_some_idx_nonneg (vs : List (Option Val)) :
    ∀ i bts bv bidx,
      (∀ w : Val, some w ∈ vs → 0 ≤ (unwrap w).1) →
      (0 ≤ bidx ∨ bts = -1) →
      (∃ w : Val, some w ∈ vs) →
      0 ≤ (selectBestAux i bts bv bidx vs).2.2 := by
  induction vs with
  | nil => intro i bts bv bidx _ _ hex; simp at hex
  | cons v rest ih =>
      intro i bts bv bidx hts hinv hex
      cases v with
      | none =>
          obtain ⟨w, hw⟩ := hex
          have hw2 : some w ∈ rest := by
            rcases List.mem_cons.mp hw with h | h
            · exact absurd h (by simp)
            · exact h
          simpa [selectBestAux] using
            ih (i + 1) bts bv bidx
              (fun w h => hts w (List.mem_cons_of_mem _ h)) hinv ⟨w, hw2⟩
      | some v =>
          by_cases hlt : bts < (unwrap v).1
          · simpa [selectBestAux, hlt] using
              selectBestAux_idx_nonneg rest (i + 1) (unwrap v).1 (unwrap v).2
                (i : ℤ) (by positivity)
          · have hv0 : 0 ≤ (unwrap v).1 := hts v (List.mem_cons_self _ _)
            have hbts : 0 ≤ bts := le_trans hv0 (not_lt.mp hlt)
            have hidx : 0 ≤ bidx := by
              rcases hinv with h | h
              · exact h
              · rw [h] at hbts; norm_num at hbts
            simpa [selectBestAux, hlt] using
              selectBestAux_idx_nonneg rest (i + 1) bts bv bidx hidx

theorem selectBestAux_all_none (vs : List (Option Val)) :
    ∀ i bts bv bidx, (∀ v ∈ vs, v = none) →
      selectBestAux i bts bv bidx vs = (bts, bv, bidx) := by
  induction vs with
  | nil => intro i bts bv bidx _; simp [selectBestAux]
  | cons v rest ih =>
      intro i bts bv bidx hall
      cases v with
      | none =>
          simpa [selectBestAux] using
            ih (i + 1) bts bv bidx (fun v h => hall v (List.mem_cons_of_mem _ h))
      | some v =>
          exact absurd (hall (some v) (List.mem_cons_self _ _)) (by simp)

theorem selectBestAux_ts_ge (vs : List (Option Val)) :
    ∀ i bts bv bidx (w : Val), some w ∈ vs →
      (unwrap w).1 ≤ (selectBestAux i bts bv bidx vs).1 := by
  induction vs with
  | nil => intro i bts bv bidx w hw; simp at hw
  | cons v rest ih =>
      intro i bts bv bidx w hw
      rcases List.mem_cons.mp hw with h | h
      · cases v with
        | none => simp at h
        | some v =>
            have hv : v = w := by simpa using h.symm
            subst hv
            by_cases hlt : bts < (unwrap v).1
            · simpa [selectBestAux, hlt] using
                selectBestAux_ts_mono rest (i + 1) (unwrap v).1 (unwrap v).2 (i : ℤ)
            · have := selectBestAux_ts_mono rest (i + 1) bts bv bidx
              simp only [selectBestAux, hlt, if_false]
              exact le_trans (not_lt.mp hlt) this
      · cases v with
        | none => simpa [selectBestAux] using ih (i + 1) bts bv bidx w h
        | some v =>
            by_cases hlt : bts < (unwrap v).1
            · simpa [selectBestAux, hlt] using
                ih (i + 1) (unwrap v).1 (unwrap v).2 (i : ℤ) w h
            · simpa [selectBestAux, hlt] using ih (i + 1) bts bv bidx w h

theorem selectBestAux_result (vs : List (Option Val)) :
    ∀ i bts bv bidx,
      selectBestAux i bts bv bidx vs = (bts, bv, bidx)
      ∨ ∃ w : Val, some w ∈ vs
          ∧ (selectBestAux i bts bv bidx vs).1 = (unwrap w).1
          ∧ (selectBestAux i bts bv bidx vs).2.1 = (unwrap w).2 := by
  induction vs with
  | nil => intro i bts bv bidx; left; simp [selectBestAux]
  | cons v rest ih =>
      intro i bts bv bidx
      cases v with
      | none =>
          rcases ih (i + 1) bts bv bidx with h | ⟨w, hw, h1, h2⟩
          · left; simpa [selectBestAux] using h
          · right
            exact ⟨w, List.mem_cons_of_mem _ hw, by simpa [selectBestAux] using h1,
              by simpa [selectBestAux] using h2⟩
      | some v =>
          by_cases hlt : bts < (unwrap v).1
          · right
            rcases ih (i + 1) (unwrap v).1 (unwrap v).2 (i : ℤ) with h | ⟨w, hw, h1, h2⟩
            · exact ⟨v, List.mem_cons_self _ _,
                by simp [selectBestAux, hlt, h],
                by simp [selectBestAux, hlt, h]⟩
            · exact ⟨w, List.mem_cons_of_mem _ hw,
                by simpa [selectBestAux, hlt] using h1,
                by simpa [selectBestAux, hlt] using h2⟩
          · rcases ih (i + 1) bts bv bidx with h | ⟨w, hw, h1, h2⟩
            · left; simpa [selectBestAux, hlt] using h
            · right
              exact ⟨w, List.mem_cons_of_mem _ hw,
                by simpa [selectBestAux, hlt] using h1,
                by simpa [selectBestAux, hlt] using h2⟩

theorem toFixAux_mem (bts : ℚ) (vs : List (Option Val)) :
    ∀ i j, j ∈ toFixAux bts i vs ↔
      ∃ k, ∃ w : Val, vs.get? k = some (some w) ∧ j = i + k
        ∧ 0 ≤ (unwrap w).1 ∧ (unwrap w).1 < bts := by
  induction vs with
  | nil =>
      intro i j
      simp [toFixAux]
  | cons v rest ih =>
      intro i j
      cases v with
      | none =>
          rw [show toFixAux bts i (none :: rest) = toFixAux bts (i + 1) rest from rfl,
            ih (i + 1) j]
          constructor
          · rintro ⟨k, w, h1, h2, h3, h4⟩
            exact ⟨k + 1, w, by simpa using h1, by omega, h3, h4⟩
          · rintro ⟨k, w, h1, h2, h3, h4⟩
            cases k with
            | zero => simp at h1
            | succ k2 => exact ⟨k2, w, by simpa using h1, by omega, h3, h4⟩
      | some v =>
          by_cases hc : 0 ≤ (unwrap v).1 ∧ (unwrap v).1 < bts
          · rw [show toFixAux bts i (some v :: rest) =
                i :: toFixAux bts (i + 1) rest from by simp [toFixAux, hc]]
            rw [List.mem_cons, ih (i + 1) j]
            constructor
            · rintro (rfl | ⟨k, w, h1, h2, h3, h4⟩)
              · exact ⟨0, v, by simp, by omega, hc.1, hc.2⟩
              · exact ⟨k + 1, w, by simpa using h1, by omega, h3, h4⟩
            · rintro ⟨k, w, h1, h2, h3, h4⟩
              cases k with
              | zero =>
                  left
                  omega
              | succ k2 => exact Or.inr ⟨k2, w, by simpa using h1, by omega, h3, h4⟩
          · rw [show toFixAux bts i (some v :: rest) = toFixAux bts (i + 1) rest
                from by simp [toFixAux, hc], ih (i + 1) j]
            constructor
            · rintro ⟨k, w, h1, h2, h3, h4⟩
              exact ⟨k + 1, w, by simpa using h1, by omega, h3, h4⟩
            · rintro ⟨k, w, h1, h2, h3, h4⟩
              cases k with
              | zero =>
                  have hw : v = w := by simpa using h1
                  subst hw
                  exact absurd ⟨h3, h4⟩ hc
              | succ k2 => exact ⟨k2, w, by simpa using h1, by omega, h3, h4⟩

end KVFront

namespace KVFront

/-- C3: a coordinator GET returns the unwrapped data of a replica response
with the highest `_ts`; it 404s exactly when every replica returned
missing; and it issues read-repair PUTs of the wrapped winner to exactly
the replicas that responded with a strictly older timestamp (missing
replicas are not repaired).  Settled under the hypothesis — maintained by
`wrap`, which stamps the wall clock — that every responding replica's
timestamp is nonnegative. -/
theorem get_key_lww_read_repair (vals : List (Option Val))
    (hts : ∀ w : Val, some w ∈ vals → 0 ≤ (unwrap w).1) :
    ((getKey vals).result = none ↔ ∀ v ∈ vals, v = none)
    ∧ (∀ data : Val, (getKey vals).result = some data →
        ∃ w : Val, some w ∈ vals ∧ (unwrap w).2 = data
          ∧ ∀ w2 : Val, some w2 ∈ vals → (unwrap w2).1 ≤ (unwrap w).1)
    ∧ (∀ (i : ℕ) (v : Val), (i, v) ∈ (getKey vals).repairs ↔
        ((∃ w : Val, vals.get? i = some (some w)
            ∧ (unwrap w).1 < (selectBest vals).1)
          ∧ v = Val.obj [("_ts", Val.num (selectBest vals).1),
                         ("data", (selectBest vals).2.1)])) := by
  by_cases hneg : (selectBest vals).2.2 < 0
  · have hres : getKey vals = ⟨none, []⟩ := by
      simp [getKey, hneg]
    have hallnone : ∀ v ∈ vals, v = none := by
      intro v hv
      cases v with
      | none => rfl
      | some w =>
          exfalso
          have h0 := selectBestAux_some_idx_nonneg vals 0 (-1) Val.null (-1)
            hts (Or.inr rfl) ⟨w, hv⟩
          rw [show selectBestAux 0 (-1) Val.null (-1) vals = selectBest vals
            from rfl] at h0
          omega
    refine ⟨?_, ?_, ?_⟩
    · rw [hres]
      exact ⟨fun _ => hallnone, fun _ => rfl⟩
    · intro data hdata
      rw [hres] at hdata
      simp at hdata
    · intro i v
      rw [hres]
      constructor
      · intro h; simp at h
      · rintro ⟨⟨w, hw, _⟩, _⟩
        have hmem : some w ∈ vals := List.get?_mem hw
        exact absurd (hallnone _ hmem) (by simp)
  · rcases selectBestAux_result vals 0 (-1) Val.null (-1) with hinit | ⟨w, hw, h1, h2⟩
    · exfalso
      apply hneg
      rw [show selectBest vals = selectBestAux 0 (-1) Val.null (-1) vals from rfl,
        hinit]
      norm_num
    · rw [show selectBestAux 0 (-1) Val.null (-1) vals = selectBest vals
        from rfl] at h1 h2
      have h0b : 0 ≤ (selectBest vals).1 := by
        rw [h1]; exact hts w hw
      have hres : getKey vals =
          ⟨some (selectBest vals).2.1,
            (toFix vals (selectBest vals).1).map
              (fun i => (i, Val.obj [("_ts", Val.num (selectBest vals).1),
                ("data", (selectBest vals).2.1)]))⟩ := by
        simp [getKey, hneg, READ_REPAIR, h0b]
      refine ⟨?_, ?_, ?_⟩
      · constructor
        · intro h; rw [hres] at h; simp at h
        · intro hall
          exfalso
          apply hneg
          have hax := selectBestAux_all_none vals 0 (-1) Val.null (-1) hall
          rw [show selectBest vals = selectBestAux 0 (-1) Val.null (-1) vals
            from rfl, hax]
          norm_num
      · intro data hdata
        rw [hres] at hdata
        have hdata2 : (selectBest vals).2.1 = data := by simpa using hdata
        refine ⟨w, hw, by rw [← h2, hdata2], ?_⟩
        intro w2 hw2
        have := selectBestAux_ts_ge vals 0 (-1) Val.null (-1) w2 hw2
        rw [show selectBestAux 0 (-1) Val.null (-1) vals = selectBest vals
          from rfl] at this
        rw [← h1]
        exact this
      · intro i v
        rw [hres]
        simp only [List.mem_map]
        constructor
        · rintro ⟨j, hj, hjv⟩
          have hji : j = i ∧ (Val.obj [("_ts", Val.num (selectBest vals).1),
              ("data", (selectBest vals).2.1)]) = v := by
            constructor
            · exact congrArg Prod.fst hjv
            · exact congrArg Prod.snd hjv
          obtain ⟨rfl, rfl⟩ := hji
          rw [toFix, toFixAux_mem] at hj
          obtain ⟨k, w2, hk, hik, hge0, hlt⟩ := hj
          have hkj : k = j := by omega
          subst hkj
          exact ⟨⟨w2, hk, hlt⟩, rfl⟩
        · rintro ⟨⟨w2, hw2, hlt⟩, rfl⟩
          refine ⟨i, ?_, rfl⟩
          rw [toFix, toFixAux_mem]
          exact ⟨i, w2, hw2, by omega, hts w2 (List.get?_mem hw2), hlt⟩

end KVFront

namespace KVFront

/-- Witness for C3 at a concrete fan-out: three replicas, the first holding
the winner (ts 5), the second missing, the third stale (ts 3); the stale
third replica receives a read-repair PUT of the wrapped winner. -/
theorem get_key_lww_read_repair_witness :
    ((2 : ℕ), Val.obj [("_ts", Val.num 5), ("data", Val.str "a")]) ∈
      (getKey [some (wrap 5 (Val.str "a")), none,
        some (wrap 3 (Val.str "b"))]).repairs := by
  have hsel : selectBest [some (wrap 5 (Val.str "a")), none,
      some (wrap 3 (Val.str "b"))] = (5, Val.str "a", 0) := rfl
  have h := get_key_lww_read_repair
    [some (wrap 5 (Val.str "a")), none, some (wrap 3 (Val.str "b"))]
    (by
      intro w hw
      simp only [List.mem_cons, List.not_mem_nil, or_false] at hw
      rcases hw with hw | hw | hw
      · cases hw; decide
      · exact absurd hw (by simp)
      · cases hw; decide)
  apply (h.2.2 2 (Val.obj [("_ts", Val.num 5), ("data", Val.str "a")])).mpr
  rw [hsel]
  exact ⟨⟨wrap 3 (Val.str "b"), rfl, by decide⟩, rfl⟩

end KVFront

namespace Dispatcher

theorem pkgClass_one : pkgClass 1 = "light" := by
  norm_num [pkgClass]

theorem pyLower_light : pyLower "light" = "light" := by decide

theorem geoL1_far_origin : geoL1.dist ⟨20, 0⟩ p00 = 20 := by
  norm_num [geoL1, p00]

/-- C9 (amended): a drone that passes the idle, no-delivery and class
filters but whose battery is less than or equal to `CRITICAL_BATTERY` —
including exactly equal — is not a candidate; `pick_drone` instead pushes
it to charging with a plain PUT.  Eligibility requires battery strictly
above the threshold. -/
theorem pick_drone_critical_battery_ineligible (ctx : PickCtx) (did : String)
    (d : DroneDoc) (h1 : d.status = "idle") (h2 : d.current_delivery = none)
    (h3 : pyLower d.type = pkgClass ctx.weight)
    (h4 : d.battery ≤ CRITICAL_BATTERY) :
    pickStep ctx did (some d) =
      (none, [KVEff.put ("drone:" ++ did) { d with status := "charging" }]) := by
  simp [pickStep, h1, h2, h3, h4]

/-- Witness for C9 (amended) at battery exactly 30 = `CRITICAL_BATTERY`. -/
theorem pick_drone_critical_battery_ineligible_witness :
    pickStep ctx1 "d1" (some droneCrit) =
      (none, [KVEff.put "drone:d1" { droneCrit with status := "charging" }]) := by
  have h := pick_drone_critical_battery_ineligible ctx1 "d1" droneCrit rfl rfl
    (by rw [show droneCrit.type = "light" from rfl, pyLower_light,
      show ctx1.weight = 1 from rfl, pkgClass_one])
    (by rw [show droneCrit.battery = 30 from rfl]; decide)
  exact h

/-- C9 counterexample: with one idle light drone whose battery is exactly
`CRITICAL_BATTERY`, `pick_drone` selects nothing and pushes that drone to
charging — refuting eligibility at the boundary. -/
theorem pick_drone_critical_battery_boundary_cex :
    droneCrit.battery = CRITICAL_BATTERY
    ∧ (pickDrone ctx1 [("d1", some droneCrit)]).choice = none
    ∧ (pickDrone ctx1 [("d1", some droneCrit)]).effects =
        [KVEff.put "drone:d1" { droneCrit with status := "charging" }] := by
  have hloop : pickLoop ctx1 [("d1", some droneCrit)] =
      ([], [KVEff.put "drone:d1" { droneCrit with status := "charging" }]) := rfl
  refine ⟨rfl, ?_, ?_⟩ <;>
    simp [pickDrone, hloop, List.mergeSort_nil]

end Dispatcher

namespace Dispatcher

/-- C8 (amended): after ranking, the winning candidate is rejected exactly
when its actual distance to the origin is strictly greater than
`MAX_PICKUP_KM`; at a distance exactly equal to `MAX_PICKUP_KM` the winner
is accepted and returned. -/
theorem pick_drone_max_pickup_boundary (ctx : PickCtx)
    (drones : List (String × Option DroneDoc)) (best : Candidate)
    (rest : List Candidate)
    (hsort : (pickLoop ctx drones).1.mergeSort candLE = best :: rest) :
    (pickDrone ctx drones).choice =
      if MAX_PICKUP_KM < best.dist_km then none else some best.id := by
  simp only [pickDrone, hsort]
  by_cases h : MAX_PICKUP_KM < best.dist_km <;> simp [h]

theorem pickLoop_droneFar_eval :
    pickLoop ctx1 [("d1", some droneFar)] =
      ([⟨"d1", 100, 0, 50, 1 / 4, 20⟩], []) := by
  norm_num [pickLoop, pickStep, ctx1, droneFar, geoL1, zcfg1, p00,
    canCompleteMission, nearestChargePoint, nearestChargePointAux, pointZone,
    zoneProximityRank, pkgClass, pyLower_light, pySetOf, MissVal.asPyList,
    pyInt, NEAR_EPS_KM, CRITICAL_BATTERY, BATTERY_PER_KM, SAFETY_MARGIN_PCT,
    EARLY_CHARGE_THRESHOLD, List.find?]

/-- Witness for C8 (amended): the winner at distance exactly 20 km =
`MAX_PICKUP_KM` is returned. -/
theorem pick_drone_max_pickup_boundary_witness :
    (pickDrone ctx1 [("d1", some droneFar)]).choice = some "d1" := by
  have h := pick_drone_max_pickup_boundary ctx1 [("d1", some droneFar)]
    ⟨"d1", 100, 0, 50, 1 / 4, 20⟩ []
    (by rw [pickLoop_droneFar_eval]; exact List.mergeSort_singleton _)
  rw [h]
  norm_num [MAX_PICKUP_KM]

/-- C8 counterexample: a winning candidate whose actual distance to the
origin is exactly `MAX_PICKUP_KM` is returned, not rejected: `best.dist_km
> MAX_PICKUP_KM` is false at equality, so the strict comparison accepts
the boundary. -/
theorem pick_drone_exact_max_pickup_accepted_cex :
    geoL1.dist ⟨20, 0⟩ p00 = MAX_PICKUP_KM
    ∧ droneFar.pos = some ⟨20, 0⟩
    ∧ (pickDrone ctx1 [("d1", some droneFar)]).choice = some "d1" := by
  refine ⟨by norm_num [geoL1, p00, MAX_PICKUP_KM], rfl, ?_⟩
  have hsort : (pickLoop ctx1 [("d1", some droneFar)]).1.mergeSort candLE =
      [⟨"d1", 100, 0, 50, 1 / 4, 20⟩] := by
    rw [pickLoop_droneFar_eval]; exact List.mergeSort_singleton _
  simp only [pickDrone, hsort]
  norm_num [MAX_PICKUP_KM]

end Dispatcher

namespace Dispatcher

theorem pickStep_effects_are_puts (ctx : PickCtx) (did : String)
    (dopt : Option DroneDoc) :
    ∀ e ∈ (pickStep ctx did dopt).2,
      ∃ doc, e = KVEff.put ("drone:" ++ did) doc := by
  intro e he
  cases dopt with
  | none => simp [pickStep] at he
  | some d =>
      simp only [pickStep] at he
      split_ifs at he <;> simp at he <;> exact ⟨_, he⟩

theorem pickLoop_effects_are_puts (ctx : PickCtx) :
    ∀ (l : List (String × Option DroneDoc)) (e : KVEff),
      e ∈ (pickLoop ctx l).2 →
      ∃ did doc, e = KVEff.put ("drone:" ++ did) doc := by
  intro l
  induction l with
  | nil => intro e he; simp [pickLoop] at he
  | cons hd tl ih =>
      intro e he
      obtain ⟨did2, dopt⟩ := hd
      simp only [pickLoop, List.mem_append] at he
      rcases he with he | he
      · obtain ⟨doc, hdoc⟩ := pickStep_effects_are_puts ctx did2 dopt e he
        exact ⟨did2, doc, hdoc⟩
      · exact ih e he

/-- C2 (amended): every mutation `pick_drone` performs on shared drone
state is a plain unconditional PUT of a drone document — never a CAS and
not guarded by that drone's lock (`pick_drone` runs before `assign_one`
acquires the drone lock); so the dispatcher does overwrite drone documents
with plain PUTs on these paths, contrary to the stated discipline. -/
theorem pick_drone_mutations_are_plain_puts (ctx : PickCtx)
    (drones : List (String × Option DroneDoc)) :
    ∀ e ∈ (pickDrone ctx drones).effects,
      ∃ did doc, e = KVEff.put ("drone:" ++ did) doc := by
  intro e he
  have heff : (pickDrone ctx drones).effects = (pickLoop ctx drones).2 := by
    simp only [pickDrone]
    cases hms : (pickLoop ctx drones).1.mergeSort candLE with
    | nil => rfl
    | cons b r => by_cases h : MAX_PICKUP_KM < b.dist_km <;> simp [h]
  rw [heff] at he
  exact pickLoop_effects_are_puts ctx drones e he

/-- Witness for C2 (amended): the charging push of the critical-battery
drone is one such plain PUT. -/
theorem pick_drone_mutations_are_plain_puts_witness :
    ∃ did doc,
      KVEff.put "drone:d1" { droneCrit with status := "charging" } =
        KVEff.put ("drone:" ++ did) doc := by
  apply pick_drone_mutations_are_plain_puts ctx1 [("d1", some droneCrit)]
  have hloop : pickLoop ctx1 [("d1", some droneCrit)] =
      ([], [KVEff.put "drone:d1" { droneCrit with status := "charging" }]) := rfl
  simp [pickDrone, hloop, List.mergeSort_nil]

/-- C2 counterexample: `pick_drone` overwrites the low-battery drone's
document with a plain unconditional PUT (no CAS involved), refuting the
claim that the dispatcher never does so. -/
theorem pick_drone_plain_put_overwrite_cex :
    (pickDrone ctx1 [("d1", some droneCrit)]).effects =
      [KVEff.put "drone:d1" { droneCrit with status := "charging" }] := by
  have hloop : pickLoop ctx1 [("d1", some droneCrit)] =
      ([], [KVEff.put "drone:d1" { droneCrit with status := "charging" }]) := rfl
  simp [pickDrone, hloop, List.mergeSort_nil]

end Dispatcher

namespace Dispatcher

theorem canCompleteMission_far200 (d : DroneDoc) (hpos : d.pos = some ⟨200, 0⟩)
    (hbatt : d.battery = 50) :
    (canCompleteMission geoL1 d p00 p00 zcfg1).1 = false := by
  norm_num [canCompleteMission, geoL1, zcfg1, p00, hpos, hbatt,
    nearestChargePoint, nearestChargePointAux, BATTERY_PER_KM,
    SAFETY_MARGIN_PCT]

/-- C1 (amended): whenever `assign_one`'s post-lock re-check fails (the
re-read drone is infeasible or at/below the battery threshold), the
function abandons and writes a drone update in which `feas_miss` has been
incremented by exactly 1 unconditionally — also when `delivery_id` is
already in `feas_miss_set` — except that reaching
`EARLY_CHARGE_THRESHOLD` resets the counter and the set and flips the
drone to charging; `delivery_id` itself is added to the set at most once;
battery at or below `CRITICAL_BATTERY` also flips the drone to
charging. -/
theorem assign_recheck_unconditional_feas_miss (geo : Geo) (zcfg : Zcfg)
    (sdoc : DroneDoc) (origin destination : Pos) (delivery_id : String)
    (hfail : (canCompleteMission geo sdoc origin destination zcfg).1 = false
      ∨ sdoc.battery ≤ CRITICAL_BATTERY) :
    ∃ s : DroneDoc,
      assignOneRecheck geo zcfg sdoc origin destination delivery_id =
        ⟨false, some s⟩
      ∧ (sdoc.feas_miss + 1 < EARLY_CHARGE_THRESHOLD →
          s.feas_miss = sdoc.feas_miss + 1)
      ∧ (EARLY_CHARGE_THRESHOLD ≤ sdoc.feas_miss + 1 →
          s.feas_miss = 0 ∧ s.status = "charging"
            ∧ s.feas_miss_set = MissVal.lst [])
      ∧ (sdoc.battery ≤ CRITICAL_BATTERY → s.status = "charging")
      ∧ (sdoc.feas_miss + 1 < EARLY_CHARGE_THRESHOLD →
          delivery_id ∈ s.feas_miss_set.asPyList
          ∧ s.feas_miss_set.asPyList.Nodup
          ∧ ∀ x : String, x ∈ s.feas_miss_set.asPyList ↔
              (x ∈ sdoc.feas_miss_set.asPyList ∨ x = delivery_id)) := by
  have hguard : ¬ (canCompleteMission geo sdoc origin destination zcfg).1 = true
      ∨ sdoc.battery ≤ CRITICAL_BATTERY := by
    rcases hfail with h | h
    · left; simp [h]
    · right; exact h
  have hmain : ∀ m2 : List String,
      m2 = (if delivery_id ∈ pySetOf sdoc.feas_miss_set.asPyList then
              pySetOf sdoc.feas_miss_set.asPyList
            else pySetOf sdoc.feas_miss_set.asPyList ++ [delivery_id]) →
      delivery_id ∈ m2 ∧ m2.Nodup ∧
        ∀ x : String, x ∈ m2 ↔
          (x ∈ sdoc.feas_miss_set.asPyList ∨ x = delivery_id) := by
    intro m2 hm2
    by_cases hin : delivery_id ∈ pySetOf sdoc.feas_miss_set.asPyList
    · subst hm2
      rw [if_pos hin]
      refine ⟨hin, List.nodup_dedup _, ?_⟩
      intro x
      simp only [pySetOf, List.mem_dedup]
      constructor
      · exact Or.inl
      · rintro (h | rfl)
        · exact h
        · simpa only [pySetOf, List.mem_dedup] using hin
    · subst hm2
      rw [if_neg hin]
      refine ⟨List.mem_append_right _ (List.mem_singleton_self _), ?_, ?_⟩
      · refine List.Nodup.append (List.nodup_dedup _) (List.nodup_singleton _) ?_
        intro a ha hb
        rw [List.mem_singleton] at hb
        subst hb
        exact hin ha
      · intro x
        simp only [List.mem_append, pySetOf, List.mem_dedup, List.mem_singleton]
  simp only [assignOneRecheck]
  rw [if_pos hguard]
  refine ⟨_, rfl, ?_, ?_, ?_, ?_⟩
  · intro hlt
    have hnthr : ¬ (sdoc.feas_miss + 1 ≥ EARLY_CHARGE_THRESHOLD) := by omega
    by_cases hb : sdoc.battery ≤ CRITICAL_BATTERY <;> simp [hb, hnthr]
  · intro hge
    have hthr : sdoc.feas_miss + 1 ≥ EARLY_CHARGE_THRESHOLD := hge
    simp [hthr]
  · intro hb
    by_cases hthr : sdoc.feas_miss + 1 ≥ EARLY_CHARGE_THRESHOLD <;>
      simp [hb, hthr]
  · intro hlt
    have hnthr : ¬ (sdoc.feas_miss + 1 ≥ EARLY_CHARGE_THRESHOLD) := by omega
    by_cases hb : sdoc.battery ≤ CRITICAL_BATTERY <;>
      simpa [hb, hnthr, MissVal.asPyList] using hmain _ rfl

end Dispatcher

namespace Dispatcher

/-- Witness for C1 (amended): on an infeasible re-check the path abandons
the assignment. -/
theorem assign_recheck_unconditional_feas_miss_witness :
    (assignOneRecheck geoL1 zcfg1 sdocSeen p00 p00 "D1").proceed = false := by
  obtain ⟨s, hs, _⟩ := assign_recheck_unconditional_feas_miss geoL1 zcfg1
    sdocSeen p00 p00 "D1" (Or.inl (canCompleteMission_far200 sdocSeen rfl rfl))
  rw [hs]

/-- C1 counterexample: delivery D1 is already recorded in the drone's
`feas_miss_set`, yet the re-check failure path still increments
`feas_miss` from 1 to 2 — the increment is not once-per-unique-delivery
on this path. -/
theorem assign_recheck_already_counted_cex :
    "D1" ∈ sdocSeen.feas_miss_set.asPyList
    ∧ sdocSeen.feas_miss = 1
    ∧ assignOneRecheck geoL1 zcfg1 sdocSeen p00 p00 "D1" =
        ⟨false,
          some { sdocSeen with
                  feas_miss := 2, feas_miss_set := MissVal.pyset ["D1"] }⟩ := by
  refine ⟨by decide, rfl, ?_⟩
  have hfeas := canCompleteMission_far200 sdocSeen rfl rfl
  have hguard : ¬ (canCompleteMission geoL1 sdocSeen p00 p00 zcfg1).1 = true
      ∨ sdocSeen.battery ≤ CRITICAL_BATTERY := by
    left; simp [hfeas]
  simp only [assignOneRecheck]
  rw [if_pos hguard]
  norm_num [sdocSeen, CRITICAL_BATTERY, EARLY_CHARGE_THRESHOLD, pySetOf,
    MissVal.asPyList, List.dedup_nil, List.dedup_cons_of_not_mem]

/-- C7: on the re-check failure path below the early-charge threshold,
`assign_one` stores a Python `set` object in `feas_miss_set` — not a JSON
list — so `json.dumps` of that drone update raises; the corresponding
`pick_drone` update stores a list and serializes fine.  The code
contradicts the canonical-list serialization the spec prescribes. -/
theorem assign_one_stores_python_set_bug :
    assignOneRecheck geoL1 zcfg1 sdocFresh p00 p00 "D1" =
      ⟨false,
        some { sdocFresh with
                feas_miss := 1, feas_miss_set := MissVal.pyset ["D1"] }⟩
    ∧ ({ sdocFresh with
          feas_miss := 1,
          feas_miss_set := MissVal.pyset ["D1"] } : DroneDoc).jsonSerializable
        = false
    ∧ (pickStep ctx1 "d1" (some sdocFresh)).2 =
        [KVEff.put "drone:d1"
          { sdocFresh with
              feas_miss := 1, feas_miss_set := MissVal.lst ["D1"] }]
    ∧ ({ sdocFresh with
          feas_miss := 1,
          feas_miss_set := MissVal.lst ["D1"] } : DroneDoc).jsonSerializable
        = true := by
  have hfeas := canCompleteMission_far200 sdocFresh rfl rfl
  refine ⟨?_, rfl, ?_, rfl⟩
  · have hguard : ¬ (canCompleteMission geoL1 sdocFresh p00 p00 zcfg1).1 = true
        ∨ sdocFresh.battery ≤ CRITICAL_BATTERY := by
      left; simp [hfeas]
    simp only [assignOneRecheck]
    rw [if_pos hguard]
    norm_num [sdocFresh, CRITICAL_BATTERY, EARLY_CHARGE_THRESHOLD, pySetOf,
      MissVal.asPyList, List.dedup_nil]
  · simp only [pickStep]
    norm_num [hfeas, pyLower_light, pkgClass, pySetOf,
      MissVal.asPyList, List.dedup_nil, CRITICAL_BATTERY,
      EARLY_CHARGE_THRESHOLD,
      show ("drone:" ++ "d1" : String) = "drone:d1" from rfl,
      show ctx1.weight = 1 from rfl,
      show ctx1.geo = geoL1 from rfl,
      show ctx1.zcfg = zcfg1 from rfl,
      show ctx1.origin = p00 from rfl,
      show ctx1.destination = p00 from rfl,
      show ctx1.delivery_id = "D1" from rfl,
      show sdocFresh.type = "light" from rfl,
      show sdocFresh.status = "idle" from rfl,
      show sdocFresh.current_delivery = none from rfl,
      show sdocFresh.battery = 50 from rfl,
      show sdocFresh.feas_miss = 0 from rfl,
      show sdocFresh.feas_miss_set = MissVal.lst [] from rfl]

end Dispatcher
